import Mathlib

/-!
Verification of the cross-omics integration and association-graph pipeline
of `app.py` (Multiomics-Integrator-app), via a shallow embedding in Lean 4.

Numeric cell values (CADD, logFC, p_value, Intensity, thresholds) are
modelled as rationals; the claims under study quantify over finite values
only, and no floating-point-specific behaviour is involved in them.
-/

namespace MultiOmics

/-- Python `str.strip()`: drop leading and trailing whitespace. -/
def pyStrip (s : String) : String :=
  ⟨((s.data.dropWhile Char.isWhitespace).reverse.dropWhile Char.isWhitespace).reverse⟩

/-- Split a character list at every character satisfying `p`, keeping empty
pieces (the behaviour of Python `s.split(sep)` for a one-character `sep`). -/
def splitPred (p : Char → Bool) : List Char → List (List Char)
  | [] => [[]]
  | c :: rest =>
    if p c then [] :: splitPred p rest
    else
      match splitPred p rest with
      | [] => [[c]]
      | piece :: pieces => (c :: piece) :: pieces

/-- Python `s.split(sep)` for a single-character separator. -/
def pySplitCh (sep : Char) (s : String) : List String :=
  (splitPred (fun c => c = sep) s.data).map (fun cs => ⟨cs⟩)

/-- Python `s.split(';')`: split on every `';'`, keeping empty pieces. -/
def splitSemi (s : String) : List String := pySplitCh ';' s

/-- Python `s.split('\t')`. -/
def splitTab (s : String) : List String := pySplitCh '\t' s

/-- Python `s.split('\n')`. -/
def splitNl (s : String) : List String := pySplitCh '\n' s

/-- Python `s.split()` (no argument): split on whitespace runs, dropping
empty pieces — equivalently, split at every whitespace character and drop
the empty pieces. -/
def pySplitWs (s : String) : List String :=
  ((splitPred Char.isWhitespace s.data).filter (fun cs => cs ≠ [])).map
    (fun cs => ⟨cs⟩)

/-- Python `';'.join(l)`. -/
def joinSemi (l : List String) : String := String.intercalate ";" l

/-- The gene tokens of a `Genes_Involved` field, as consumed by the network
loop of `app.py` (lines 191-194): split on `';'`, strip each piece, skip
empties. -/
def splitClean (s : String) : List String :=
  ((splitSemi s).map pyStrip).filter (fun g => g ≠ "")

/-! ### Layer tables (data model of the three uploaded CSVs) -/

/-- One genomics row: `{Gene, CADD}`. -/
structure GRow where
  Gene : String
  CADD : ℚ
deriving DecidableEq, Repr

/-- One transcriptomics row: `{Gene, logFC, p_value}` (the extra numeric
feature columns play no role in the claims under study). -/
structure TRow where
  Gene : String
  logFC : ℚ
  p_value : ℚ
deriving DecidableEq, Repr

/-- One proteomics row: `{Protein, Intensity}`; `Protein` may hold a
semicolon-delimited accession list. -/
structure PRow where
  Protein : String
  Intensity : ℚ
deriving DecidableEq, Repr

/-! ### Layer Filter (`app.py` lines 56-58) -/

/-- Source: `gdf[gdf['CADD'] >= cadd_thresh]`. -/
def filterGenomics (gdf : List GRow) (cadd_thresh : ℚ) : List GRow :=
  gdf.filter (fun r => cadd_thresh ≤ r.CADD)

/-- Source: `tdf[(tdf['p_value'] <= t_pval_thresh) & (tdf['logFC'].abs() >= logfc_thresh)]`. -/
def filterTranscriptomics (tdf : List TRow) (t_pval_thresh logfc_thresh : ℚ) :
    List TRow :=
  tdf.filter (fun r => r.p_value ≤ t_pval_thresh ∧ logfc_thresh ≤ |r.logFC|)

/-- Source: `pdf[pdf['Intensity'] >= p_intensity_thresh]`. -/
def filterProteomics (pdf : List PRow) (p_intensity_thresh : ℚ) : List PRow :=
  pdf.filter (fun r => p_intensity_thresh ≤ r.Intensity)

/-! ### Deduplication and dict models

Python `set(...)` has an unspecified iteration order; wherever `app.py`
iterates over a set (the folded fields of the association table, the id
sets), we canonicalise to first-occurrence order.  Every theorem below that
depends on such a set uses only order-insensitive facts (membership,
no-duplicates), except where the concrete example makes order irrelevant. -/

/-- Duplicate-removal keeping the first occurrence of each element. -/
def dedupFirst : List String → List String
  | [] => []
  | x :: xs => x :: (dedupFirst xs).filter (fun y => y ≠ x)

theorem mem_dedupFirst (l : List String) (x : String) :
    x ∈ dedupFirst l ↔ x ∈ l := by
  induction l with
  | nil => simp [dedupFirst]
  | cons a as ih =>
    simp only [dedupFirst, List.mem_cons, List.mem_filter]
    constructor
    · rintro (rfl | ⟨h, _⟩)
      · exact Or.inl rfl
      · exact Or.inr (ih.mp h)
    · rintro (rfl | h)
      · exact Or.inl rfl
      · by_cases hx : x = a
        · exact Or.inl hx
        · exact Or.inr ⟨ih.mpr h, by simpa using hx⟩

theorem nodup_dedupFirst (l : List String) : (dedupFirst l).Nodup := by
  induction l with
  | nil => simp [dedupFirst]
  | cons a as ih =>
    simp only [dedupFirst, List.nodup_cons]
    refine ⟨fun h => ?_, ih.filter _⟩
    have := (List.mem_filter.mp h).2
    simp at this

/-- A Python `dict` with string keys and values, as an association list in
insertion order; `dictInsert` is `d[k] = v` (an existing key keeps its
position and gets the new value, a new key is appended). -/
abbrev Dict := List (String × String)

def dictInsert (m : Dict) (k v : String) : Dict :=
  if m.any (fun p => p.1 = k) then
    m.map (fun p => if p.1 = k then (k, v) else p)
  else
    m ++ [(k, v)]

/-- Lookup in the style of `m.get(k, None)`. -/
def dictGet (m : Dict) (k : String) : Option String :=
  (m.find? (fun p => p.1 = k)).map (fun p => p.2)

/-! ### The pyvis network model

`app.py` builds the graph through `pyvis.network.Network` with
`directed=False`.  pyvis is an external collaborator of the repository, so
its two insertion operations are modelled from the spec.  Node colours play
no role in any claim and are omitted; a node is its id/label string. -/

/-- The association graph: node ids in insertion order, undirected edges as
ordered pairs in insertion order. -/
structure Net where
  nodes : List String
  edges : List (String × String)
deriving DecidableEq, Repr

/-- Modelled from the spec: pyvis `Network.add_node` (external library);
"node identity is its label ... duplicate insertions of the same label must
not create duplicate nodes" — an id already present is not added again. -/
def addNode (n : Net) (id : String) : Net :=
  if id ∈ n.nodes then n else { n with nodes := n.nodes ++ [id] }

/-- Modelled from the spec: pyvis `Network.add_edge` on an undirected
network (external library); "edges are unordered pairs and duplicate edges
must not be created" — the pair is skipped when it is already present in
either orientation. -/
def addEdge (n : Net) (src dst : String) : Net :=
  if n.edges.any (fun e => (e.1 = src ∧ e.2 = dst) ∨ (e.1 = dst ∧ e.2 = src)) then
    n
  else
    { n with edges := n.edges ++ [(src, dst)] }

/-- The five legend/key nodes added before any data (lines 167-178). -/
def legendNet : Net :=
  ["legend_Gene", "legend_Protein", "legend_Pathway", "legend_Metabolite",
   "legend_Disease"].foldl addNode { nodes := [], edges := [] }

/-! ### Association records and the network-construction loop
(`app.py` lines 186-209) -/

/-- One flat association record (the dicts appended to `raw_assoc_data`). -/
structure Record where
  Gene : String
  Protein : String
  Pathway : String
  Metabolite : String
  Disease : String
deriving DecidableEq, Repr

/-- One post-transform enrichment result row as consumed by the network
loop (columns `Pathway` = renamed `Term`, `Genes_Involved` = renamed
`Genes`; the numeric columns are not read there). -/
structure TermRow where
  Pathway : String
  GenesInvolved : String
deriving DecidableEq, Repr

/-- Source: `[prot for prot, gname in protein_gene_map.items() if gname == gene]`
(line 198). -/
def matchedProteins (pmap : Dict) (gene : String) : List String :=
  (pmap.filter (fun pg => pg.2 = gene)).map (fun pg => pg.1)

/-- The record appended at lines 203-209 for one `(source, term, gene)`. -/
def mkRecord (name term gene : String) (pmap : Dict) : Record :=
  { Gene := gene,
    Protein := if matchedProteins pmap gene ≠ [] then
                 joinSemi (matchedProteins pmap gene)
               else "",
    Pathway := if name = "Reactome Pathways" then term else "",
    Metabolite := if name = "HMDB Metabolites" then term else "",
    Disease := if name = "Disease Associations" then term else "" }

/-- Body of the `for gene in row['Genes_Involved'].split(';')` loop after
the strip/skip-empty guard (lines 195-209). -/
def processGene (pmap : Dict) (name term : String)
    (st : Net × List Record) (gene : String) : Net × List Record :=
  let n1 := addNode st.1 gene
  let n2 := addEdge n1 gene term
  let n3 := (matchedProteins pmap gene).foldl
              (fun n prot => addEdge (addNode n prot) gene prot) n2
  (n3, st.2 ++ [mkRecord name term gene pmap])

/-- Body of the `for _, row in df.head(num_pathways_to_show).iterrows()`
loop (lines 188-209). -/
def processRow (pmap : Dict) (name : String)
    (st : Net × List Record) (row : TermRow) : Net × List Record :=
  (splitClean row.GenesInvolved).foldl
    (processGene pmap name row.Pathway) (addNode st.1 row.Pathway, st.2)

/-- Body of the `for name, df in results.items()` loop (lines 186-209);
only the first `num_pathways_to_show` rows of each source are processed. -/
def processSource (pmap : Dict) (numPathways : Nat)
    (st : Net × List Record) (src : String × List TermRow) : Net × List Record :=
  (src.2.take numPathways).foldl (processRow pmap src.1) st

/-- The whole network-construction stage: legend nodes, then every source's
top rows; returns the graph and the flat `raw_assoc_data` list. -/
def buildNetwork (results : List (String × List TermRow)) (pmap : Dict)
    (numPathways : Nat) : Net × List Record :=
  results.foldl (processSource pmap numPathways) (legendNet, [])

/-! ### Graph deduplication invariant (claim C1) -/

/-- Two ordered edge pairs represent the same unordered edge. -/
def dupEdge (e f : String × String) : Prop :=
  (e.1 = f.1 ∧ e.2 = f.2) ∨ (e.1 = f.2 ∧ e.2 = f.1)

instance (e f : String × String) : Decidable (dupEdge e f) := by
  unfold dupEdge; infer_instance

/-- The graph invariant: no duplicate node label, no duplicate unordered
edge. -/
def NetDedup (n : Net) : Prop :=
  n.nodes.Nodup ∧ n.edges.Pairwise (fun e f => ¬ dupEdge e f)

theorem addNode_dedup {n : Net} (id : String) (h : NetDedup n) :
    NetDedup (addNode n id) := by
  unfold addNode
  split
  next hm => exact h
  next hm =>
    refine ⟨?_, h.2⟩
    simp [List.nodup_append, h.1, hm]

theorem addEdge_dedup {n : Net} (src dst : String) (h : NetDedup n) :
    NetDedup (addEdge n src dst) := by
  unfold addEdge
  split
  next hm => exact h
  next hm =>
    refine ⟨h.1, ?_⟩
    rw [List.pairwise_append]
    refine ⟨h.2, List.pairwise_singleton _ _, ?_⟩
    intro e he f hf
    simp only [List.mem_singleton] at hf
    subst hf
    simp only [List.any_eq_true, decide_eq_true_eq] at hm
    push_neg at hm
    intro hd
    have hd' : (e.1 = src ∧ e.2 = dst) ∨ (e.1 = dst ∧ e.2 = src) := by
      simpa [dupEdge] using hd
    rcases hd' with ⟨h1, h2⟩ | ⟨h1, h2⟩
    · exact (hm e he).1 h1 h2
    · exact (hm e he).2 h1 h2

theorem foldl_preserve {α σ : Type} (P : σ → Prop) (f : σ → α → σ)
    (hf : ∀ s a, P s → P (f s a)) :
    ∀ (l : List α) (s : σ), P s → P (l.foldl f s) := by
  intro l
  induction l with
  | nil => intro s hs; simpa using hs
  | cons a as ih => intro s hs; exact ih _ (hf s a hs)

theorem processGene_dedup (pmap : Dict) (name term : String)
    (st : Net × List Record) (gene : String) (h : NetDedup st.1) :
    NetDedup (processGene pmap name term st gene).1 := by
  unfold processGene
  refine foldl_preserve (fun n => NetDedup n)
    (fun n prot => addEdge (addNode n prot) gene prot)
    (fun n prot hn => addEdge_dedup _ _ (addNode_dedup _ hn)) _ _ ?_
  exact addEdge_dedup _ _ (addNode_dedup _ h)

theorem processRow_dedup (pmap : Dict) (name : String)
    (st : Net × List Record) (row : TermRow) (h : NetDedup st.1) :
    NetDedup (processRow pmap name st row).1 := by
  unfold processRow
  have := foldl_preserve (fun s : Net × List Record => NetDedup s.1)
    (processGene pmap name row.Pathway)
    (fun s g hs => processGene_dedup pmap name row.Pathway s g hs)
    (splitClean row.GenesInvolved) (addNode st.1 row.Pathway, st.2)
    (addNode_dedup _ h)
  exact this

theorem processSource_dedup (pmap : Dict) (numPathways : Nat)
    (st : Net × List Record) (src : String × List TermRow) (h : NetDedup st.1) :
    NetDedup (processSource pmap numPathways st src).1 := by
  unfold processSource
  exact foldl_preserve (fun s : Net × List Record => NetDedup s.1)
    (processRow pmap src.1)
    (fun s r hs => processRow_dedup pmap src.1 s r hs)
    _ _ h

theorem legendNet_dedup : NetDedup legendNet := by
  constructor
  · decide
  · decide

/-- C1: for every run of the association-graph construction (any per-source
term tables, any protein-to-gene map, any top-K cap), the resulting graph
has no duplicate node label and no duplicate unordered edge: reaching the
same gene, term or protein again, from any row of any source, never creates
a second node, and re-discovering a gene-term or gene-protein pair never
creates a second edge. -/
theorem assoc_graph_deduplication (results : List (String × List TermRow))
    (pmap : Dict) (numPathways : Nat) :
    (buildNetwork results pmap numPathways).1.nodes.Nodup ∧
      (buildNetwork results pmap numPathways).1.edges.Pairwise
        (fun e f => ¬ dupEdge e f) := by
  have := foldl_preserve (fun s : Net × List Record => NetDedup s.1)
    (processSource pmap numPathways)
    (fun s src hs => processSource_dedup pmap numPathways s src hs)
    results (legendNet, []) legendNet_dedup
  exact this

/-! ### Flat-record emission (claim C5) -/

/-- Modelled from the spec (claim C5): the records one processed term row
should emit — one per cleaned gene token of its `Genes_Involved` field. -/
def rowRecords (pmap : Dict) (name : String) (row : TermRow) : List Record :=
  (splitClean row.GenesInvolved).map
    (fun gene => mkRecord name row.Pathway gene pmap)

/-- Modelled from the spec (claim C5): the whole flat record list — per
source, per processed (top-K) term row, the row's records in order. -/
def specRecords (results : List (String × List TermRow)) (pmap : Dict)
    (numPathways : Nat) : List Record :=
  (results.map (fun src =>
    ((src.2.take numPathways).map (rowRecords pmap src.1)).flatten)).flatten

theorem foldl_append_records {α : Type} (f : Net × List Record → α → Net × List Record)
    (g : α → List Record)
    (hf : ∀ st a, (f st a).2 = st.2 ++ g a) (l : List α) :
    ∀ st : Net × List Record, (l.foldl f st).2 = st.2 ++ (l.map g).flatten := by
  induction l with
  | nil => intro st; simp
  | cons a as ih =>
    intro st
    simp only [List.foldl_cons, List.map_cons, List.flatten_cons]
    rw [ih (f st a), hf st a, List.append_assoc]

theorem flatten_map_singleton {α β : Type} (f : α → β) (l : List α) :
    (l.map (fun x => [f x])).flatten = l.map f := by
  induction l with
  | nil => rfl
  | cons a as ih => simp only [List.map_cons, List.flatten_cons, ih]; rfl

theorem processGene_records (pmap : Dict) (name term : String)
    (st : Net × List Record) (gene : String) :
    (processGene pmap name term st gene).2 = st.2 ++ [mkRecord name term gene pmap] := rfl

theorem processRow_records (pmap : Dict) (name : String)
    (st : Net × List Record) (row : TermRow) :
    (processRow pmap name st row).2 = st.2 ++ rowRecords pmap name row := by
  unfold processRow rowRecords
  rw [foldl_append_records (processGene pmap name row.Pathway)
    (fun gene => [mkRecord name row.Pathway gene pmap])
    (fun st g => processGene_records pmap name row.Pathway st g)]
  rw [flatten_map_singleton]

theorem processSource_records (pmap : Dict) (numPathways : Nat)
    (st : Net × List Record) (src : String × List TermRow) :
    (processSource pmap numPathways st src).2 =
      st.2 ++ ((src.2.take numPathways).map (rowRecords pmap src.1)).flatten := by
  unfold processSource
  exact foldl_append_records (processRow pmap src.1) (rowRecords pmap src.1)
    (fun st r => processRow_records pmap src.1 st r) _ st

/-- C5: the flat association-record list produced by the network loop holds,
for every source and every processed (top-`num_pathways_to_show`) term row,
exactly one record per gene token obtained by splitting `Genes_Involved` on
`';'`, trimming and dropping empties; each record carries that gene, the
semicolon-joined list of proteins whose mapped gene equals it (empty when
none match), and the term placed in the one field selected by the source
name, the other two term fields staying empty. -/
theorem assoc_records_characterization (results : List (String × List TermRow))
    (pmap : Dict) (numPathways : Nat) :
    (buildNetwork results pmap numPathways).2 = specRecords results pmap numPathways ∧
    (∀ name term gene pm, (mkRecord name term gene pm).Gene = gene ∧
      (mkRecord name term gene pm).Protein = joinSemi (matchedProteins pm gene)) ∧
    (∀ term gene pm,
      ((mkRecord "Reactome Pathways" term gene pm).Pathway = term ∧
        (mkRecord "Reactome Pathways" term gene pm).Metabolite = "" ∧
        (mkRecord "Reactome Pathways" term gene pm).Disease = "") ∧
      ((mkRecord "HMDB Metabolites" term gene pm).Metabolite = term ∧
        (mkRecord "HMDB Metabolites" term gene pm).Pathway = "" ∧
        (mkRecord "HMDB Metabolites" term gene pm).Disease = "") ∧
      ((mkRecord "Disease Associations" term gene pm).Disease = term ∧
        (mkRecord "Disease Associations" term gene pm).Pathway = "" ∧
        (mkRecord "Disease Associations" term gene pm).Metabolite = "")) := by
  refine ⟨?_, ?_, ?_⟩
  · unfold buildNetwork specRecords
    have := foldl_append_records (processSource pmap numPathways)
      (fun src => ((src.2.take numPathways).map (rowRecords pmap src.1)).flatten)
      (fun st src => processSource_records pmap numPathways st src)
      results (legendNet, [])
    simpa using this
  · intro name term gene pm
    refine ⟨rfl, ?_⟩
    unfold mkRecord
    by_cases h : matchedProteins pm gene = []
    · simp only [h, joinSemi]; decide
    · simp [h]
  · intro term gene pm
    refine ⟨⟨rfl, rfl, rfl⟩, ⟨rfl, rfl, rfl⟩, ⟨rfl, rfl, rfl⟩⟩

/-! ### Association aggregation (`app.py` lines 218-228)

`df.groupby('Gene')` sorts the group keys ascending (pandas default
`sort=True`); each per-group field is `';'.join(set(filter(None, x)))`,
i.e. the join of the deduplicated non-empty values (set iteration order
canonicalised to first occurrence, see above). -/

structure SummaryRow where
  Gene : String
  Protein : String
  Pathway : String
  Disease : String
  Metabolite : String
deriving DecidableEq, Repr

/-- Python/pandas string comparison: lexicographic on code points. -/
def strLtB : List Char → List Char → Bool
  | [], [] => false
  | [], _ :: _ => true
  | _ :: _, [] => false
  | a :: as, b :: bs =>
    if a.toNat < b.toNat then true
    else if b.toNat < a.toNat then false
    else strLtB as bs

def pyStrLe (s t : String) : Bool := !(strLtB t.data s.data)

/-- Group keys in pandas `groupby` order: ascending string order. -/
def sortStrings (l : List String) : List String :=
  l.insertionSort (fun a b => pyStrLe a b = true)

/-- Source: `filter(None, x)` over one folded column of a group. -/
def nonEmptyVals (recs : List Record) (f : Record → String) : List String :=
  (recs.map f).filter (fun v => v ≠ "")

/-- Source: `';'.join(set(filter(None, x)))`. -/
def foldField (recs : List Record) (f : Record → String) : String :=
  joinSemi (dedupFirst (nonEmptyVals recs f))

/-- The aggregated row of one gene group. -/
def aggRow (recs : List Record) (g : String) : SummaryRow :=
  { Gene := g,
    Protein := foldField (recs.filter (fun r => r.Gene = g)) (fun r => r.Protein),
    Pathway := foldField (recs.filter (fun r => r.Gene = g)) (fun r => r.Pathway),
    Disease := foldField (recs.filter (fun r => r.Gene = g)) (fun r => r.Disease),
    Metabolite := foldField (recs.filter (fun r => r.Gene = g)) (fun r => r.Metabolite) }

/-- Source: `df.groupby('Gene').agg({...}).reset_index()`. -/
def aggregate (recs : List Record) : List SummaryRow :=
  (sortStrings (dedupFirst (recs.map (fun r => r.Gene)))).map (aggRow recs)

/-- pandas `notnull` on one object-dtype cell: `False` only for `NaN`/`None`.
Every cell of the aggregated frame is a Python `str` (the gene key and the
four joined strings), so the cell is non-null whatever its content, empty
string included. -/
def pdNotNullStr (_ : String) : Bool := true

/-- Source: `assoc_df.notnull().sum(axis=1)` for one row (columns `Gene`, `Protein`,
`Pathway`, `Disease`, `Metabolite` after `reset_index`). -/
def nonNulls (row : SummaryRow) : Nat :=
  [row.Gene, row.Protein, row.Pathway, row.Disease, row.Metabolite].countP pdNotNullStr

/-- Source: `assoc_df.sort_values(by='non_nulls', ascending=False)` followed by
dropping the key column: a sort placing rows of larger key first (kept
stable; the keys below are provably all equal, where any comparison sort
leaves the order unchanged, as pandas does). -/
def sortByNonNullsDesc (rows : List SummaryRow) : List SummaryRow :=
  rows.insertionSort (fun a b => nonNulls b ≤ nonNulls a)

/-- The displayed association summary (lines 218-228). -/
def assocSummary (recs : List Record) : List SummaryRow :=
  sortByNonNullsDesc (aggregate recs)

theorem insertionSort_of_total {α : Type} (r : α → α → Prop) [DecidableRel r]
    (h : ∀ a b, r a b) (l : List α) : l.insertionSort r = l := by
  induction l with
  | nil => rfl
  | cons a as ih =>
    rw [List.insertionSort, ih]
    cases as with
    | nil => rfl
    | cons b bs => rw [List.orderedInsert, if_pos (h a b)]

theorem nonNulls_const (row : SummaryRow) : nonNulls row = 5 := rfl

/-- All `non_nulls` keys equal 5, so the density sort is the identity. -/
theorem assocSummary_eq_aggregate (recs : List Record) :
    assocSummary recs = aggregate recs := by
  unfold assocSummary sortByNonNullsDesc
  exact insertionSort_of_total _ (fun a b => by simp [nonNulls_const]) _

/-! ### Claims C6 and C2 about the aggregation -/

/-- The folded value `v` of field `f` for gene `g` is a `';'`-join of some
duplicate-free list holding exactly the non-empty values of `f` across the
gene's records. -/
def FoldedOk (recs : List Record) (g : String) (f : Record → String) (v : String) : Prop :=
  ∃ l : List String, l.Nodup ∧
    (∀ x, x ∈ l ↔ x ∈ nonEmptyVals (recs.filter (fun r => r.Gene = g)) f) ∧
    v = joinSemi l

theorem aggregate_genes (recs : List Record) :
    (aggregate recs).map (fun r => r.Gene) =
      sortStrings (dedupFirst (recs.map (fun r => r.Gene))) := by
  unfold aggregate
  rw [List.map_map]
  exact List.map_id' _

/-- C6: the association summary has exactly one row per distinct gene of the
flat records — the projected gene column has no duplicates and holds exactly
the genes occurring in the records — and every row's folded `Protein`,
`Pathway`, `Disease` and `Metabolite` fields are joins of duplicate-free
lists of exactly the non-empty values of that field across the gene's
records. -/
theorem assoc_summary_grouping (recs : List Record) :
    ((aggregate recs).map (fun r => r.Gene)).Nodup ∧
    (∀ g, g ∈ (aggregate recs).map (fun r => r.Gene) ↔ g ∈ recs.map (fun r => r.Gene)) ∧
    (∀ row, row ∈ aggregate recs →
      FoldedOk recs row.Gene (fun r => r.Protein) row.Protein ∧
      FoldedOk recs row.Gene (fun r => r.Pathway) row.Pathway ∧
      FoldedOk recs row.Gene (fun r => r.Disease) row.Disease ∧
      FoldedOk recs row.Gene (fun r => r.Metabolite) row.Metabolite) := by
  refine ⟨?_, ?_, ?_⟩
  · rw [aggregate_genes]
    exact ((List.perm_insertionSort _ _).nodup_iff).mpr (nodup_dedupFirst _)
  · intro g
    rw [aggregate_genes]
    unfold sortStrings
    rw [(List.perm_insertionSort (fun a b => pyStrLe a b = true) _).mem_iff,
      mem_dedupFirst]
  · intro row hrow
    unfold aggregate at hrow
    rcases List.mem_map.mp hrow with ⟨g, _, rfl⟩
    refine ⟨?_, ?_, ?_, ?_⟩ <;>
      exact ⟨dedupFirst (nonEmptyVals ((recs.filter (fun r => r.Gene = g))) _),
        nodup_dedupFirst _, fun x => mem_dedupFirst _ x, rfl⟩

/-- Concrete records for the aggregation examples (the gene seen first,
`g2`, carries three non-empty fields; `g1` carries one). -/
def recC2first : Record :=
  { Gene := "g2", Protein := "X", Pathway := "P", Metabolite := "", Disease := "D" }

def recC2second : Record :=
  { Gene := "g1", Protein := "", Pathway := "P", Metabolite := "", Disease := "" }

/-- Modelled from the spec (claim C2): a row's density is the count of its
non-empty folded fields. -/
def densitySpec (row : SummaryRow) : Nat :=
  [row.Protein, row.Pathway, row.Disease, row.Metabolite].countP (fun s => s ≠ "")

/-- C2 refutation at a concrete input: on records for genes `g2` (density 3,
seen first) and `g1` (density 1), the summary lists `g1` before `g2` —
`groupby` key order — because every row's `non_nulls` key is the constant 5
(empty strings are non-null), so the density sort moves nothing: the rows
are neither in descending spec-density order nor in first-appearance order. -/
theorem assoc_summary_not_density_sorted :
    assocSummary [recC2first, recC2second] =
      [{ Gene := "g1", Protein := "", Pathway := "P", Disease := "", Metabolite := "" },
       { Gene := "g2", Protein := "X", Pathway := "P", Disease := "D", Metabolite := "" }] ∧
    densitySpec { Gene := "g2", Protein := "X", Pathway := "P", Disease := "D", Metabolite := "" } >
      densitySpec { Gene := "g1", Protein := "", Pathway := "P", Disease := "", Metabolite := "" } := by
  constructor
  · decide
  · decide

/-- Two records of one gene whose fields repeat values, for the C6 witness. -/
def recC6a : Record :=
  { Gene := "gA", Protein := "P1;P2", Pathway := "W", Metabolite := "", Disease := "" }

def recC6b : Record :=
  { Gene := "gA", Protein := "P1;P2", Pathway := "W2", Metabolite := "", Disease := "" }

theorem assoc_summary_grouping_witness :
    ((aggregate [recC6a, recC6b]).map (fun r => r.Gene)).Nodup ∧
    FoldedOk [recC6a, recC6b] (aggRow [recC6a, recC6b] "gA").Gene
      (fun r => r.Protein) (aggRow [recC6a, recC6b] "gA").Protein := by
  have h := assoc_summary_grouping [recC6a, recC6b]
  exact ⟨h.1, (h.2.2 (aggRow [recC6a, recC6b] "gA") (by decide)).1⟩

/-! ### Layer-filter exactness (claim C4) -/

/-- C4: each layer filter returns exactly the input rows satisfying its
predicate — the output is a sublist of the input, membership in the output
is equivalent to membership in the input plus the predicate (`CADD ≥ T` for
genomics, `p_value ≤ ceiling` and `|logFC| ≥ T` for transcriptomics,
`Intensity ≥ floor` for proteomics) — so no qualifying row is dropped and no
non-qualifying row is retained. -/
theorem layer_filters_exact (gdf : List GRow) (tdf : List TRow) (pdf : List PRow)
    (cadd_thresh t_pval_thresh logfc_thresh p_intensity_thresh : ℚ) :
    (filterGenomics gdf cadd_thresh).Sublist gdf ∧
    (∀ r : GRow, r ∈ filterGenomics gdf cadd_thresh ↔
      r ∈ gdf ∧ cadd_thresh ≤ r.CADD) ∧
    (filterTranscriptomics tdf t_pval_thresh logfc_thresh).Sublist tdf ∧
    (∀ r : TRow, r ∈ filterTranscriptomics tdf t_pval_thresh logfc_thresh ↔
      r ∈ tdf ∧ (r.p_value ≤ t_pval_thresh ∧ logfc_thresh ≤ |r.logFC|)) ∧
    (filterProteomics pdf p_intensity_thresh).Sublist pdf ∧
    (∀ r : PRow, r ∈ filterProteomics pdf p_intensity_thresh ↔
      r ∈ pdf ∧ p_intensity_thresh ≤ r.Intensity) := by
  refine ⟨List.filter_sublist _, fun r => ?_, List.filter_sublist _, fun r => ?_,
    List.filter_sublist _, fun r => ?_⟩ <;>
    simp [filterGenomics, filterTranscriptomics, filterProteomics, List.mem_filter]

/-! ### Identifier Resolver (`map_uniprot_to_gene`, `app.py` lines 75-91)

The UniProt service is an external collaborator: it is a parameter giving,
per requested chunk, either a raised `requests.get` exception or a response
with a status code and a text body. -/

/-- One batch's service behaviour. -/
inductive BatchResp where
  | netErr : BatchResp
  | resp (status : Nat) (body : String) : BatchResp

/-- Source: `ids[i:i+100]` batching of the accession list (lines 78-79). -/
def chunks100 (ids : List String) : List (List String) := List.toChunks 100 ids

/-- Source: `r.text.strip().split('\n')[1:]` (line 85): strip, split into lines,
discard the header line. -/
def bodyLines (body : String) : List String := (splitNl (pyStrip body)).drop 1

/-- Source: `genes.split()[0] if genes else acc` (line 88); `none` models the
`IndexError` raised when `genes` is non-empty but purely whitespace. -/
def parseGene (acc genes : String) : Option String :=
  if genes = "" then some acc
  else
    match pySplitWs genes with
    | [] => none
    | t :: _ => some t

/-- Source: `acc, genes = line.split('\t')` and the value stored for `acc`
(lines 87-88); `none` models the `ValueError` raised when the split does
not give exactly two fields, or the `IndexError` of `parseGene`. -/
def lineEntry (line : String) : Option (String × String) :=
  match splitTab line with
  | [acc, genes] => (parseGene acc genes).map (fun g => (acc, g))
  | _ => none

/-- The `for line in lines` loop (lines 86-88): the dict is mutated line by
line; an exception on a line aborts the remaining lines of this batch (it
is caught by the chunk-level `except`) but the entries already inserted
stay. -/
def processLines : List String → Dict → Dict
  | [], m => m
  | line :: rest, m =>
    match lineEntry line with
    | some e => processLines rest (dictInsert m e.1 e.2)
    | none => m

/-- One iteration of the chunk loop (lines 82-90): a raised `requests.get`
is caught and logged; a non-200 status is skipped by the `if`; a 200 body
is parsed line by line under the `try`. -/
def processBatch (m : Dict) (r : BatchResp) : Dict :=
  match r with
  | .netErr => m
  | .resp status body =>
    if status = 200 then processLines (bodyLines body) m else m

/-- Source: `map_uniprot_to_gene` (lines 75-91), parameterised by the per-chunk
service behaviour. -/
def map_uniprot_to_gene (service : List String → BatchResp)
    (uniprot_ids : List String) : Dict :=
  (chunks100 uniprot_ids).foldl (fun m c => processBatch m (service c)) []

/-- The entries one batch contributes: its parsed lines up to (excluding)
the first failing line, nothing on a network error or non-200 status. -/
def entriesOf : List String → List (String × String)
  | [] => []
  | line :: rest =>
    match lineEntry line with
    | some e => e :: entriesOf rest
    | none => []

def respEntries (r : BatchResp) : List (String × String) :=
  match r with
  | .netErr => []
  | .resp status body =>
    if status = 200 then entriesOf (bodyLines body) else []

/-- Whether this batch fails: the request raised, the status was not 200,
or some response line raised during parsing. -/
def linesFailed : List String → Bool
  | [] => false
  | line :: rest =>
    match lineEntry line with
    | some _ => linesFailed rest
    | none => true

def respFailed (r : BatchResp) : Bool :=
  match r with
  | .netErr => true
  | .resp status body =>
    if status = 200 then linesFailed (bodyLines body) else true

/-- Sequential dict insertion of an entry stream. -/
def upserts (m : Dict) (es : List (String × String)) : Dict :=
  es.foldl (fun m e => dictInsert m e.1 e.2) m

theorem find?_map_update (m : Dict) (k v k' : String) :
    (m.map (fun p => if p.1 = k then (k, v) else p)).find?
        (fun p => decide (p.1 = k')) =
      if k' = k then (m.find? (fun p => decide (p.1 = k))).map (fun _ => (k, v))
      else m.find? (fun p => decide (p.1 = k')) := by
  induction m with
  | nil => by_cases h : k' = k <;> simp [h]
  | cons p ps ih =>
    rcases p with ⟨a, b⟩
    simp only [List.map_cons]
    by_cases hp : a = k
    · by_cases hk : k' = k
      · rw [if_pos hk, if_pos hp]
        rw [List.find?_cons_of_pos _ (by simp only [decide_eq_true_eq]; exact hk.symm),
          List.find?_cons_of_pos _ (by simp only [decide_eq_true_eq]; exact hp)]
        simp
      · rw [if_neg hk, if_pos hp]
        rw [List.find?_cons_of_neg _
            (by simp only [decide_eq_true_eq]; exact fun h => hk h.symm),
          List.find?_cons_of_neg _
            (by simp only [decide_eq_true_eq]; exact fun h => hk (h ▸ hp ▸ rfl)),
          ih, if_neg hk]
    · by_cases hk : k' = k
      · rw [if_pos hk, if_neg hp]
        rw [List.find?_cons_of_neg _
          (by simp only [decide_eq_true_eq]; exact fun h => hp (h.trans hk))]
        rw [ih, if_pos hk]
        rw [List.find?_cons_of_neg _ (by simp only [decide_eq_true_eq]; exact hp)]
      · rw [if_neg hk, if_neg hp]
        by_cases ha : a = k'
        · rw [List.find?_cons_of_pos _ (by simp only [decide_eq_true_eq]; exact ha),
            List.find?_cons_of_pos _ (by simp only [decide_eq_true_eq]; exact ha)]
        · rw [List.find?_cons_of_neg _ (by simp only [decide_eq_true_eq]; exact ha),
            List.find?_cons_of_neg _ (by simp only [decide_eq_true_eq]; exact ha),
            ih, if_neg hk]

theorem dictGet_dictInsert (m : Dict) (k v k' : String) :
    dictGet (dictInsert m k v) k' = if k' = k then some v else dictGet m k' := by
  unfold dictInsert
  by_cases hany : (m.any (fun p => p.1 = k)) = true
  · rw [if_pos hany]
    unfold dictGet
    rw [find?_map_update]
    by_cases hk : k' = k
    · rw [if_pos hk, if_pos hk]
      have hs : (m.find? (fun p => decide (p.1 = k))).isSome = true := by
        rw [List.find?_isSome]
        simpa [List.any_eq_true] using hany
      cases hf : m.find? (fun p => decide (p.1 = k)) with
      | none => rw [hf] at hs; simp at hs
      | some e => simp
    · rw [if_neg hk, if_neg hk]
  · rw [if_neg hany]
    unfold dictGet
    rw [List.find?_append]
    by_cases hk : k' = k
    · subst hk
      have hnone : m.find? (fun p => decide (p.1 = k')) = none := by
        rw [List.find?_eq_none]
        intro x hx
        simp only [decide_eq_true_eq]
        intro hxk
        apply hany
        rw [List.any_eq_true]
        exact ⟨x, hx, by simp [hxk]⟩
      rw [hnone, if_pos rfl]
      simp [List.find?]
    · rw [if_neg hk]
      cases hf : m.find? (fun p => decide (p.1 = k')) with
      | some e => simp
      | none =>
        rw [List.find?_cons_of_neg _
          (by simp only [decide_eq_true_eq]; exact fun h => hk h.symm)]
        simp

theorem processLines_eq_upserts (ls : List String) (m : Dict) :
    processLines ls m = upserts m (entriesOf ls) := by
  induction ls generalizing m with
  | nil => rfl
  | cons line rest ih =>
    unfold processLines entriesOf
    cases lineEntry line with
    | none => rfl
    | some e => simpa [upserts] using ih (dictInsert m e.1 e.2)

theorem processBatch_eq_upserts (m : Dict) (r : BatchResp) :
    processBatch m r = upserts m (respEntries r) := by
  cases r with
  | netErr => rfl
  | resp status body =>
    show (if status = 200 then processLines (bodyLines body) m else m) =
      upserts m (if status = 200 then entriesOf (bodyLines body) else [])
    by_cases h : status = 200
    · rw [if_pos h, if_pos h, processLines_eq_upserts]
    · rw [if_neg h, if_neg h]; rfl

theorem upserts_append (m : Dict) (es fs : List (String × String)) :
    upserts m (es ++ fs) = upserts (upserts m es) fs :=
  List.foldl_append _ _ _ _

/-- The resolver is the sequential insertion of the per-batch entry
streams: nothing from an erroring or non-200 batch, the pre-failure prefix
from a batch whose parsing raises, everything from a fully parsed batch. -/
theorem map_uniprot_eq_upserts (service : List String → BatchResp)
    (uniprot_ids : List String) :
    map_uniprot_to_gene service uniprot_ids =
      upserts [] (((chunks100 uniprot_ids).map
        (fun c => respEntries (service c))).flatten) := by
  unfold map_uniprot_to_gene
  generalize chunks100 uniprot_ids = cs
  generalize ([] : Dict) = m
  induction cs generalizing m with
  | nil => rfl
  | cons c cs ih =>
    simp only [List.foldl_cons, List.map_cons, List.flatten_cons]
    rw [upserts_append, ← processBatch_eq_upserts, ih]

theorem dictGet_upserts (m : Dict) (es : List (String × String)) (k : String) :
    dictGet (upserts m es) k =
      match es.reverse.find? (fun e => e.1 = k) with
      | some e => some e.2
      | none => dictGet m k := by
  induction es generalizing m with
  | nil => simp [upserts]
  | cons e es ih =>
    rw [show upserts m (e :: es) = upserts (dictInsert m e.1 e.2) es from rfl, ih]
    rw [show (e :: es).reverse = es.reverse ++ [e] from by simp]
    rw [List.find?_append]
    cases hf : es.reverse.find? (fun x => x.1 = k) with
    | some x => simp
    | none =>
      simp only [Option.none_or]
      rw [dictGet_dictInsert]
      by_cases hk : k = e.1
      · rw [if_pos hk]
        rw [List.find?_cons_of_pos _ (by simpa using hk.symm)]
      · rw [if_neg hk]
        rw [List.find?_cons_of_neg _ (by simpa using fun h => hk h.symm)]
        simp [List.find?]

/-! ### Claims C3 and C9 about the resolver -/

/-- C3 (amended): the resolver is total over arbitrary per-batch service
behaviour — it equals the sequential insertion of the per-batch entry
streams (an erroring or non-200 batch contributes nothing, a batch whose
parsing raises contributes exactly its entries before the failure point, a
fully parsed batch contributes everything) — and any accession whose last
binding in that stream is `(k, v)` is mapped to `v` in the returned map; in
particular entries of successful batches not re-bound later are all
present. -/
theorem resolver_batch_failure_tolerance (service : List String → BatchResp)
    (uniprot_ids : List String) (k v : String)
    (h : ((((chunks100 uniprot_ids).map
          (fun c => respEntries (service c))).flatten).reverse).find?
          (fun e => e.1 = k) = some (k, v)) :
    map_uniprot_to_gene service uniprot_ids =
      upserts [] (((chunks100 uniprot_ids).map
        (fun c => respEntries (service c))).flatten) ∧
    dictGet (map_uniprot_to_gene service uniprot_ids) k = some v := by
  refine ⟨map_uniprot_eq_upserts service uniprot_ids, ?_⟩
  rw [map_uniprot_eq_upserts, dictGet_upserts, h]

/-- A service whose single batch responds with one well-formed line
followed by a malformed (tab-free) line. -/
def svcC3bad : List String → BatchResp := fun c =>
  if c = ["A", "B"] then .resp 200 "Entry\tGene Names\nA\tG\nB" else .netErr

/-- C3 refutation at a concrete input: the single batch `["A", "B"]` fails —
its second response line `"B"` has no tab, so `line.split('\t')` raises
`ValueError` — yet accession `A` of that failed batch is present in the
returned map with the value parsed before the failure: accessions of a
failed batch are not "simply absent", partial entries remain. -/
theorem resolver_failed_batch_partial_entries :
    chunks100 ["A", "B"] = [["A", "B"]] ∧
    respFailed (svcC3bad ["A", "B"]) = true ∧
    map_uniprot_to_gene svcC3bad ["A", "B"] = [("A", "G")] := by
  exact ⟨by decide, by decide, by decide⟩

/-- A service whose single batch fully parses. -/
def svcC3ok : List String → BatchResp := fun c =>
  if c = ["A", "B"] then .resp 200 "Entry\tGene Names\nA\tG1 X\nB\tG2" else .netErr

theorem resolver_batch_failure_tolerance_witness :
    dictGet (map_uniprot_to_gene svcC3ok ["A", "B"]) "A" = some "G1" :=
  (resolver_batch_failure_tolerance svcC3ok ["A", "B"] "A" "G1" (by decide)).2

/-- C9: for a response line that splits on tab as `acc<TAB>genes`, the
line loop of the resolver maps `acc` to the first whitespace-delimited
token of `genes`, and to `acc` itself when `genes` is empty. -/
theorem response_line_mapping (line acc genes : String) (m : Dict)
    (hsplit : splitTab line = [acc, genes]) :
    (genes = "" → processLines [line] m = dictInsert m acc acc) ∧
    (∀ t ts, pySplitWs genes = t :: ts →
      processLines [line] m = dictInsert m acc t) := by
  constructor
  · intro hg
    subst hg
    unfold processLines lineEntry
    rw [hsplit]
    simp [parseGene, processLines]
  · intro t ts hws
    have hpg : parseGene acc genes = some t := by
      unfold parseGene
      by_cases hg : genes = ""
      · rw [hg] at hws
        rw [show pySplitWs "" = [] from by decide] at hws
        exact absurd hws (by simp)
      · rw [if_neg hg, hws]
    have hle : lineEntry line = some (acc, t) := by
      unfold lineEntry
      rw [hsplit]
      show (parseGene acc genes).map (fun g => (acc, g)) = some (acc, t)
      rw [hpg]
      rfl
    unfold processLines
    rw [hle]
    rfl

theorem response_line_mapping_witness :
    processLines ["P04637\tTP53 P53"] [] = dictInsert [] "P04637" "TP53" ∧
    processLines ["Q99999\t"] [] = dictInsert [] "Q99999" "Q99999" := by
  constructor
  · exact (response_line_mapping "P04637\tTP53 P53" "P04637" "TP53 P53" []
      (by decide)).2 "TP53" ["P53"] (by decide)
  · exact (response_line_mapping "Q99999\t" "Q99999" "" [] (by decide)).1 rfl

/-! ### Enrichment Orchestrator (`app.py` lines 122-158)

`gseapy.enrichr` is an external collaborator: per library it either raises
(an `Except.error`) or returns a table of rows.  The derived
`-log10(pval)` plotting column (line 141) is a presentation-only
floating-point transform and is not modelled; the rename
`Term → Pathway`, `Genes → Genes_Involved` (line 142) is the field naming
of `ResultRow`. -/

/-- One raw `enr.results` row: `Term`, `P-value`, `Adjusted P-value`,
`Overlap`, `Genes`. -/
structure EnrRow where
  Term : String
  PValue : ℚ
  AdjPValue : ℚ
  Overlap : String
  Genes : String
deriving DecidableEq, Repr

/-- The same row after the rename of line 142. -/
structure ResultRow where
  Pathway : String
  PValue : ℚ
  AdjPValue : ℚ
  Overlap : String
  GenesInvolved : String
deriving DecidableEq, Repr

def transform (r : EnrRow) : ResultRow :=
  { Pathway := r.Term, PValue := r.PValue, AdjPValue := r.AdjPValue,
    Overlap := r.Overlap, GenesInvolved := r.Genes }

/-- The fixed library configuration (lines 127-131), in iteration order. -/
def libraries : List (String × String) :=
  [("Reactome Pathways", "Reactome_2016"),
   ("Disease Associations", "DisGeNET"),
   ("HMDB Metabolites", "HMDB_Metabolites")]

/-- What the enrichment loop accumulates: the submissions made, the
per-source result tables, the per-source empty-result warnings and the
per-source caught-exception error reports. -/
structure EnrichOut where
  calls : List String
  results : List (String × List ResultRow)
  warnings : List String
  errors : List String
deriving DecidableEq, Repr

/-- One iteration of `for name, lib in libraries.items()` (lines 133-158):
submit, catch an exception as a per-source error, treat an empty table as a
per-source warning and skip it, otherwise store the transformed table. -/
def enrichStep (service : String → Except String (List EnrRow))
    (acc : EnrichOut) (nl : String × String) : EnrichOut :=
  let acc := { acc with calls := acc.calls ++ [nl.2] }
  match service nl.2 with
  | .error e =>
    { acc with errors := acc.errors ++ ["Error in " ++ nl.1 ++ " enrichment: " ++ e] }
  | .ok rows =>
    if rows = [] then
      { acc with warnings := acc.warnings ++ ["No results from " ++ nl.1] }
    else
      { acc with results := acc.results ++ [(nl.1, rows.map transform)] }

def emptyEnrichOut : EnrichOut := { calls := [], results := [], warnings := [], errors := [] }

/-- The whole enrichment loop. -/
def runEnrichment (service : String → Except String (List EnrRow)) : EnrichOut :=
  libraries.foldl (enrichStep service) emptyEnrichOut

/-- Characterisation of the loop over any library list and start state. -/
theorem enrich_foldl_spec (service : String → Except String (List EnrRow))
    (ls : List (String × String)) (acc : EnrichOut) :
    ls.foldl (enrichStep service) acc =
      { calls := acc.calls ++ ls.map (fun nl => nl.2),
        results := acc.results ++ ls.filterMap (fun nl =>
          match service nl.2 with
          | .error _ => none
          | .ok rows => if rows = [] then none else some (nl.1, rows.map transform)),
        warnings := acc.warnings ++ ls.filterMap (fun nl =>
          match service nl.2 with
          | .error _ => none
          | .ok rows => if rows = [] then some ("No results from " ++ nl.1) else none),
        errors := acc.errors ++ ls.filterMap (fun nl =>
          match service nl.2 with
          | .error e => some ("Error in " ++ nl.1 ++ " enrichment: " ++ e)
          | .ok _ => none) } := by
  induction ls generalizing acc with
  | nil => simp
  | cons nl ls ih =>
    rw [List.foldl_cons, ih]
    unfold enrichStep
    cases hs : service nl.2 with
    | error e => simp [hs]
    | ok rows =>
      by_cases hr : rows = []
      · simp [hs, hr]
      · simp [hs, hr]

/-- C8: for every service behaviour, every configured source is submitted
(in order) regardless of other sources' failures; the collected result
tables are exactly those of the sources that neither raised nor returned an
empty table, each transformed table unchanged and in order; an empty table
yields exactly a per-source warning, and an exception yields exactly a
per-source error report — failures never remove or alter another source's
entry. -/
theorem enrichment_source_isolation (service : String → Except String (List EnrRow)) :
    (runEnrichment service).calls = libraries.map (fun nl => nl.2) ∧
    (runEnrichment service).results = libraries.filterMap (fun nl =>
      match service nl.2 with
      | .error _ => none
      | .ok rows => if rows = [] then none else some (nl.1, rows.map transform)) ∧
    (runEnrichment service).warnings = libraries.filterMap (fun nl =>
      match service nl.2 with
      | .error _ => none
      | .ok rows => if rows = [] then some ("No results from " ++ nl.1) else none) ∧
    (runEnrichment service).errors = libraries.filterMap (fun nl =>
      match service nl.2 with
      | .error e => some ("Error in " ++ nl.1 ++ " enrichment: " ++ e)
      | .ok _ => none) := by
  unfold runEnrichment
  rw [enrich_foldl_spec]
  exact ⟨by simp [emptyEnrichOut], by simp [emptyEnrichOut], by simp [emptyEnrichOut],
    by simp [emptyEnrichOut]⟩

/-! ### Script-level control flow (`app.py` lines 40-58, 94-123, 160-231)

The sidebar configuration.  `float(st.sidebar.text_input(...))` runs at
lines 40-43, before the upload check of line 54 and outside the
`try`/`except ValueError` of lines 55/259, so a threshold string that does
not parse raises an uncaught `ValueError`: Streamlit surfaces it and the
script stops before any filtering.  Python `float` is modelled as a
parameter `parseFloat : String → Option ℚ`. -/

structure Config where
  cadd_input : String
  logfc_input : String
  pval_input : String
  intensity_input : String
  run_enrichment : Bool
  show_network : Bool
  show_association_table : Bool
  num_pathways : Nat
deriving DecidableEq, Repr

/-- Source: `extract_uniprot_ids` (lines 66-73): split each Protein cell on `';'`,
strip, drop empties, collect into a set. -/
def extract_uniprot_ids (protein_col : List String) : List String :=
  dedupFirst (((protein_col.map splitSemi).flatten.map pyStrip).filter
    (fun pid => pid ≠ ""))

/-- The expansion loop (lines 97-105): one `(Protein, GeneName)` pair per
stripped non-empty accession that resolved. -/
def expandedRows (pdf_filtered : List PRow) (umap : Dict) : List (String × String) :=
  (((pdf_filtered.map (fun row => splitSemi row.Protein)).flatten.map pyStrip).filter
    (fun pid => pid ≠ "")).filterMap
    (fun pid => (dictGet umap pid).map (fun gene => (pid, gene)))

/-- Source: `protein_gene_map = dict(zip(...))` (line 110). -/
def protein_gene_map (expanded : List (String × String)) : Dict :=
  upserts [] expanded

/-- The columns the network loop reads from a stored result row. -/
def toTermRow (r : ResultRow) : TermRow :=
  { Pathway := r.Pathway, GenesInvolved := r.GenesInvolved }

/-- The `results` dict after the enrichment stage: `{}` when the checkbox is off
(line 122, the loop of lines 125-158 is skipped). -/
def pipelineResults (enrService : String → Except String (List EnrRow))
    (cfg : Config) : List (String × List ResultRow) :=
  if cfg.run_enrichment = true then (runEnrichment enrService).results else []

/-- Source: `if show_network and results:` (line 160): the network stage runs only
then, producing the graph and the flat records. -/
def netStage (results : List (String × List ResultRow)) (pmap : Dict)
    (cfg : Config) : Option (Net × List Record) :=
  if cfg.show_network = true ∧ results ≠ [] then
    some (buildNetwork (results.map (fun nr => (nr.1, nr.2.map toTermRow)))
      pmap cfg.num_pathways)
  else none

/-- The `raw_assoc_data` list after the network stage: `[]` (line 123) when the
stage did not run. -/
def rawAssocOf (netOut : Option (Net × List Record)) : List Record :=
  match netOut with
  | some nr => nr.2
  | none => []

/-- Source: `if show_association_table and raw_assoc_data:` (line 218). -/
def summaryStage (raw : List Record) (cfg : Config) : Option (List SummaryRow) :=
  if cfg.show_association_table = true ∧ raw ≠ [] then some (assocSummary raw)
  else none

structure PipelineOut where
  gdf_filtered : List GRow
  tdf_filtered : List TRow
  pdf_filtered : List PRow
  results : List (String × List ResultRow)
  raw_assoc_data : List Record
  net : Option Net
  assoc_summary : Option (List SummaryRow)

/-- The filtering-to-summary pipeline (lines 56-231) on uploaded tables and
already-parsed thresholds. -/
def pipeline (enrService : String → Except String (List EnrRow))
    (uniService : List String → BatchResp)
    (g : List GRow) (t : List TRow) (p : List PRow)
    (cadd logfc pval inten : ℚ) (cfg : Config) : PipelineOut :=
  let gdf_filtered := filterGenomics g cadd
  let tdf_filtered := filterTranscriptomics t pval logfc
  let pdf_filtered := filterProteomics p inten
  let umap := map_uniprot_to_gene uniService
    (extract_uniprot_ids (pdf_filtered.map (fun r => r.Protein)))
  let pmap := protein_gene_map (expandedRows pdf_filtered umap)
  let results := pipelineResults enrService cfg
  let netOut := netStage results pmap cfg
  let raw := rawAssocOf netOut
  { gdf_filtered := gdf_filtered, tdf_filtered := tdf_filtered,
    pdf_filtered := pdf_filtered, results := results,
    raw_assoc_data := raw, net := netOut.map (fun nr => nr.1),
    assoc_summary := summaryStage raw cfg }

inductive ScriptResult where
  | configError : ScriptResult
  | noData : ScriptResult
  | ran (out : PipelineOut) : ScriptResult

/-- The script's top level: parse the four threshold inputs in order
(lines 40-43; the first failure raises an uncaught `ValueError` and stops
the script), then enter the pipeline only when all three files are
uploaded (line 54). -/
def script (parseFloat : String → Option ℚ)
    (enrService : String → Except String (List EnrRow))
    (uniService : List String → BatchResp)
    (gdf : Option (List GRow)) (tdf : Option (List TRow))
    (pdf : Option (List PRow)) (cfg : Config) : ScriptResult :=
  match parseFloat cfg.cadd_input with
  | none => .configError
  | some cadd =>
    match parseFloat cfg.logfc_input with
    | none => .configError
    | some logfc =>
      match parseFloat cfg.pval_input with
      | none => .configError
      | some pval =>
        match parseFloat cfg.intensity_input with
        | none => .configError
        | some inten =>
          match gdf, tdf, pdf with
          | some g, some t, some p =>
            .ran (pipeline enrService uniService g t p cadd logfc pval inten cfg)
          | _, _, _ => .noData

/-! ### Claims C7 and C10 about the script control flow -/

/-- C7: for every parse behaviour and every run, if any of the four
threshold inputs fails to parse as a number, the script stops with the
uncaught-`ValueError` outcome — surfaced by the framework, never silently
defaulted — before any layer filtering: `configError` carries no pipeline
output at all. -/
theorem threshold_parse_error_halts (parseFloat : String → Option ℚ)
    (enrService : String → Except String (List EnrRow))
    (uniService : List String → BatchResp)
    (gdf : Option (List GRow)) (tdf : Option (List TRow)) (pdf : Option (List PRow))
    (cfg : Config)
    (h : parseFloat cfg.cadd_input = none ∨ parseFloat cfg.logfc_input = none ∨
      parseFloat cfg.pval_input = none ∨ parseFloat cfg.intensity_input = none) :
    script parseFloat enrService uniService gdf tdf pdf cfg =
      ScriptResult.configError := by
  unfold script
  cases hc : parseFloat cfg.cadd_input with
  | none => rfl
  | some cadd =>
    cases hl : parseFloat cfg.logfc_input with
    | none => rfl
    | some logfc =>
      cases hp : parseFloat cfg.pval_input with
      | none => rfl
      | some pval =>
        cases hi : parseFloat cfg.intensity_input with
        | none => rfl
        | some inten => rcases h with h | h | h | h <;> simp_all

def cfgC7 : Config :=
  { cadd_input := "abc", logfc_input := "1", pval_input := "0.05",
    intensity_input := "1000", run_enrichment := true, show_network := true,
    show_association_table := true, num_pathways := 10 }

theorem threshold_parse_error_halts_witness :
    script (fun _ => none) (fun _ => Except.error "service down")
      (fun _ => BatchResp.netErr) none none none cfgC7 =
      ScriptResult.configError :=
  threshold_parse_error_halts (fun _ => none) (fun _ => Except.error "service down")
    (fun _ => BatchResp.netErr) none none none cfgC7 (Or.inl rfl)

theorem runEnrichment_results_empty (service : String → Except String (List EnrRow))
    (h : ∀ lib, service lib = Except.ok []) :
    (runEnrichment service).results = [] := by
  unfold runEnrichment
  rw [enrich_foldl_spec]
  simp [emptyEnrichOut, libraries, h]

/-- C10: flat association records are emitted only by the network stage —
for every run with show-network off, or in which every enrichment source
returns an empty table, `raw_assoc_data` stays empty and no association
summary is produced, even when show-association-table is on. -/
theorem records_only_from_network_stage
    (enrService : String → Except String (List EnrRow))
    (uniService : List String → BatchResp)
    (g : List GRow) (t : List TRow) (p : List PRow)
    (cadd logfc pval inten : ℚ) (cfg : Config)
    (h : cfg.show_network = false ∨ (∀ lib, enrService lib = Except.ok [])) :
    (pipeline enrService uniService g t p cadd logfc pval inten cfg).raw_assoc_data = [] ∧
    (pipeline enrService uniService g t p cadd logfc pval inten cfg).assoc_summary = none := by
  have hres : cfg.show_network = false ∨ pipelineResults enrService cfg = [] := by
    rcases h with h | h
    · exact Or.inl h
    · refine Or.inr ?_
      unfold pipelineResults
      by_cases hr : cfg.run_enrichment = true
      · rw [if_pos hr, runEnrichment_results_empty enrService h]
      · rw [if_neg hr]
  have hnet : ∀ pmap : Dict,
      netStage (pipelineResults enrService cfg) pmap cfg = none := by
    intro pmap
    unfold netStage
    rcases hres with h' | h'
    · rw [if_neg]
      rintro ⟨h1, _⟩
      rw [h'] at h1
      exact Bool.false_ne_true h1
    · rw [if_neg]
      rintro ⟨_, h2⟩
      exact h2 h'
  constructor
  · show rawAssocOf (netStage (pipelineResults enrService cfg) _ cfg) = []
    rw [hnet]
    rfl
  · show summaryStage
      (rawAssocOf (netStage (pipelineResults enrService cfg) _ cfg)) cfg = none
    rw [hnet]
    simp [rawAssocOf, summaryStage]

def cfgC10 : Config :=
  { cadd_input := "20", logfc_input := "1", pval_input := "0.05",
    intensity_input := "1000", run_enrichment := true, show_network := false,
    show_association_table := true, num_pathways := 10 }

def enrRowC10 : EnrRow :=
  { Term := "TermA", PValue := 1/100, AdjPValue := 1/50, Overlap := "1/10",
    Genes := "TP53" }

def svcC10 : String → Except String (List EnrRow) := fun _ => Except.ok [enrRowC10]

theorem records_only_from_network_stage_witness :
    (pipeline svcC10 (fun _ => BatchResp.netErr) [] [] [] 20 1 (1/20) 1000
      cfgC10).raw_assoc_data = [] ∧
    (pipeline svcC10 (fun _ => BatchResp.netErr) [] [] [] 20 1 (1/20) 1000
      cfgC10).assoc_summary = none :=
  records_only_from_network_stage svcC10 (fun _ => BatchResp.netErr) [] [] []
    20 1 (1/20) 1000 cfgC10 (Or.inl rfl)

end MultiOmics
